import Mathlib

set_option maxRecDepth 20000

/-
Verification of the storage engine of the mcp-tools repository
(src/context_manager/storage.py, src/models.py) against its design
specification.

The storage layer is embedded shallowly:

* every SQLite TEXT value is a `Str` (a list of characters), and SQLite's
  memcmp ordering of (ASCII) TEXT values is the lexicographic comparison
  `strCmp`;
* the two tables `contexts` and `todo_snapshots` are lists of row records
  inside a `Store`; `INSERT OR REPLACE` removes the conflicting row and
  appends the fresh one; `UPDATE ... WHERE` is a map over the rows;
* each public method of `ContextStorage` becomes a pure function on
  `Store`; a method that raises on malformed stored data returns `Option`
  (`none` = the read failed loudly);
* Python's `",".join` / `.split(",")` are `pyJoin` / `pySplit`;
  `datetime.isoformat` / `datetime.fromisoformat` are `isoformat` /
  `fromisoformat`; SQLite's `LIKE` is `likeMatch`;
* structured JSON columns (`content`, `metadata`, `todos`) are held in
  parsed form in the row: `json.dumps` / `json.loads` and pydantic's
  `model_dump_json` / `model_validate_json` are mutually inverse on the
  values this program stores, so the serialize-then-parse pipeline of
  those columns is the identity; the textual JSON image needed by the
  substring search is produced by the concrete encoder `contentToJson`.
-/

/-- A SQLite TEXT value / Python `str`, as a list of characters. -/
abbrev Str := List Char

/-- Lexicographic three-way comparison of two text values, character by
character by code point: the ordering SQLite's memcmp gives ASCII TEXT. -/
def strCmp : Str → Str → Ordering
  | [], [] => .eq
  | [], _ :: _ => .lt
  | _ :: _, [] => .gt
  | a :: s, b :: t => if a < b then .lt else if b < a then .gt else strCmp s t

/-- Strict lexicographic order on text values. -/
def strLt (s t : Str) : Bool := strCmp s t == .lt

/-- Python `sep.join(parts)`. -/
def pyJoin (sep : Char) : List Str → Str
  | [] => []
  | [t] => t
  | t :: rest => t ++ sep :: pyJoin sep rest

/-- Python `s.split(sep)`: always yields one more part than there are
separator occurrences, so the empty string splits to `[[]]`. -/
def pySplit (sep : Char) : Str → List Str
  | [] => [[]]
  | c :: rest =>
    if c = sep then [] :: pySplit sep rest
    else
      match pySplit sep rest with
      | [] => [[c]]
      | p :: ps => (c :: p) :: ps

/-- The ASCII digit for a value 0–9 (CPython formats each datetime field
with `%d`-style zero padding, digit by digit). -/
def digitChar : Nat → Char
  | 0 => '0' | 1 => '1' | 2 => '2' | 3 => '3' | 4 => '4'
  | 5 => '5' | 6 => '6' | 7 => '7' | 8 => '8' | _ => '9'

/-- Zero-padded fixed-width decimal rendering, most significant digit
first: the `%04d` / `%02d` / `%06d` fields of `datetime.isoformat`. -/
def padDigits : Nat → Nat → Str
  | 0, _ => []
  | k + 1, v => digitChar (v / 10 ^ k) :: padDigits k (v % 10 ^ k)

/-- The numeric value of an ASCII digit character, if it is one. -/
def charDigit : Char → Option Nat
  | c => if '0' ≤ c ∧ c ≤ '9' then some (c.toNat - 48) else none

/-- Reads exactly `k` ASCII digits off the front of a text value, returning
the decoded number and the remaining text. -/
def parseDigits : Nat → Str → Option (Nat × Str)
  | 0, s => some (0, s)
  | _ + 1, [] => none
  | k + 1, c :: s =>
    match charDigit c, parseDigits k s with
    | some d, some (v, r) => some (d * 10 ^ k + v, r)
    | _, _ => none

/-- A Python `datetime.datetime` value as held by `ContextEntry.timestamp`
and `TodoListSnapshot.timestamp`: wall-clock fields plus the tz UTC offset
in minutes (`None` for a naive datetime). Offsets with sub-minute
resolution do not occur in practice and are not modelled. -/
structure PyDatetime where
  year : Nat
  month : Nat
  day : Nat
  hour : Nat
  minute : Nat
  second : Nat
  microsecond : Nat
  utcoffsetMinutes : Option Int
deriving DecidableEq, Repr

/-- The range every `datetime.datetime` object guarantees for its fields
(day upper bound relaxed to 31; Python offsets are strictly below 24 h). -/
def validDT (d : PyDatetime) : Bool :=
  decide (1 ≤ d.year) && decide (d.year ≤ 9999) &&
  decide (1 ≤ d.month) && decide (d.month ≤ 12) &&
  decide (1 ≤ d.day) && decide (d.day ≤ 31) &&
  decide (d.hour ≤ 23) && decide (d.minute ≤ 59) &&
  decide (d.second ≤ 59) && decide (d.microsecond ≤ 999999) &&
  (match d.utcoffsetMinutes with
   | none => true
   | some o => decide (-1439 ≤ o) && decide (o ≤ 1439))

/-- The fractional-seconds part of `datetime.isoformat()`: omitted when the
microsecond field is zero, else a dot and six zero-padded digits. -/
def isoMicro (us : Nat) : Str :=
  if us = 0 then [] else '.' :: padDigits 6 us

/-- The offset suffix of `datetime.isoformat()`: empty for a naive value,
else sign, two-digit hours, colon, two-digit minutes. -/
def isoOffset : Option Int → Str
  | none => []
  | some o =>
    (if 0 ≤ o then '+' else '-') ::
      (padDigits 2 (o.natAbs / 60) ++ ':' :: padDigits 2 (o.natAbs % 60))

/-- Python `datetime.isoformat()`, the textual form `save_context` and
`save_todo_snapshot` store in the `timestamp` TEXT column. -/
def isoformat (d : PyDatetime) : Str :=
  padDigits 4 d.year ++ '-' ::
    (padDigits 2 d.month ++ '-' ::
      (padDigits 2 d.day ++ 'T' ::
        (padDigits 2 d.hour ++ ':' ::
          (padDigits 2 d.minute ++ ':' ::
            (padDigits 2 d.second ++
              (isoMicro d.microsecond ++ isoOffset d.utcoffsetMinutes))))))

/-- Consumes one expected character. -/
def expectCh (c : Char) : Str → Option Str
  | [] => none
  | d :: r => if d = c then some r else none

/-- Reads the optional fractional-seconds field. -/
def parseMicroPart : Str → Option (Nat × Str)
  | [] => some (0, [])
  | c :: r => if c = '.' then parseDigits 6 r else some (0, c :: r)

/-- Reads the optional trailing offset field and requires the end of the
text. -/
def parseOffsetPart : Str → Option (Option Int)
  | [] => some none
  | c :: r =>
    if c = '+' ∨ c = '-' then
      (parseDigits 2 r).bind fun (hh, r1) =>
      (expectCh ':' r1).bind fun r2 =>
      (parseDigits 2 r2).bind fun (mm, r3) =>
      if r3 = [] then
        some (some (if c = '+' then ((hh * 60 + mm : Nat) : Int)
                    else -((hh * 60 + mm : Nat) : Int)))
      else none
    else none

/-- Python `datetime.fromisoformat`, restricted to the grammar
`datetime.isoformat` emits (which is all `_row_to_context` ever feeds it
for rows this storage layer wrote). -/
def fromisoformat (s : Str) : Option PyDatetime :=
  (parseDigits 4 s).bind fun (y, s1) =>
  (expectCh '-' s1).bind fun s2 =>
  (parseDigits 2 s2).bind fun (mo, s3) =>
  (expectCh '-' s3).bind fun s4 =>
  (parseDigits 2 s4).bind fun (dd, s5) =>
  (expectCh 'T' s5).bind fun s6 =>
  (parseDigits 2 s6).bind fun (hh, s7) =>
  (expectCh ':' s7).bind fun s8 =>
  (parseDigits 2 s8).bind fun (mi, s9) =>
  (expectCh ':' s9).bind fun s10 =>
  (parseDigits 2 s10).bind fun (ss, s11) =>
  (parseMicroPart s11).bind fun (us, s12) =>
  (parseOffsetPart s12).map fun off =>
  ⟨y, mo, dd, hh, mi, ss, us, off⟩

/-- Field-by-field lexicographic comparison of the wall-clock components,
the base comparison CPython uses for two datetimes whose UTC offsets are
equal (`datetime._cmp` with `base_compare = True`). -/
def tupleCmp (d1 d2 : PyDatetime) : Ordering :=
  (compare d1.year d2.year).then
    ((compare d1.month d2.month).then
      ((compare d1.day d2.day).then
        ((compare d1.hour d2.hour).then
          ((compare d1.minute d2.minute).then
            ((compare d1.second d2.second).then
              (compare d1.microsecond d2.microsecond))))))

/-- Days from 1970-01-01 of a proleptic Gregorian civil date (Howard
Hinnant's `days_from_civil`, the arithmetic underlying Python ordinal
conversion; exact for the whole `datetime` year range 1–9999). -/
def daysFromCivil (y m d : Int) : Int :=
  let yy := if m ≤ 2 then y - 1 else y
  let era := (if 0 ≤ yy then yy else yy - 399) / 400
  let yoe := yy - era * 400
  let doy := (153 * (if 2 < m then m - 3 else m + 9) + 2) / 5 + d - 1
  let doe := yoe * 365 + yoe / 4 - yoe / 100 + doy
  era * 146097 + doe - 719468

/-- Microseconds from the epoch of the wall-clock reading. -/
def wallMicros (d : PyDatetime) : Int :=
  ((((daysFromCivil d.year d.month d.day) * 24 + d.hour) * 60 + d.minute) * 60
      + d.second) * 1000000 + d.microsecond

/-- Microseconds from the epoch in UTC for an aware datetime with offset
`o` minutes. -/
def utcMicros (d : PyDatetime) (o : Int) : Int := wallMicros d - o * 60000000

/-- CPython comparison of two datetimes (`datetime._cmp`): naive versus
aware raises `TypeError` (`none` here); equal offsets compare the
wall-clock field tuples; different offsets compare the UTC instants. -/
def dtCmp (d1 d2 : PyDatetime) : Option Ordering :=
  match d1.utcoffsetMinutes, d2.utcoffsetMinutes with
  | none, none => some (tupleCmp d1 d2)
  | some o1, some o2 =>
    if o1 = o2 then some (tupleCmp d1 d2)
    else some (compare (utcMicros d1 o1) (utcMicros d2 o2))
  | _, _ => none

/-- Chronological strict order on datetimes, where defined. -/
def dtLt (d1 d2 : PyDatetime) : Bool := dtCmp d1 d2 == some .lt

/-- Metadata mapping (`dict[str, Any]`). The storage layer never inspects
metadata values, it only serializes on write and parses on read, so the
values are kept in their serialized textual form. -/
abbrev Meta := List (Str × Str)

/-- models.ContextContent: four optional payload slots. -/
structure ContextContent where
  messages : Option (List Str)
  code : Option (List (Str × Str))
  suggestions : Option Str
  errors : Option Str
deriving DecidableEq, Repr

/-- models.ContextEntry. -/
structure ContextEntry where
  id : Str
  timestamp : PyDatetime
  type : Str
  title : Str
  content : ContextContent
  tags : List Str
  project_path : Str
  session_id : Option Str
  session_timestamp : Option PyDatetime
  metadata : Meta
  chatgpt_response : Option Str
  claude_response : Option Str
deriving DecidableEq, Repr

/-- models.Todo. -/
structure Todo where
  content : Str
  status : Str
  activeForm : Str
deriving DecidableEq, Repr

/-- models.TodoListSnapshot. -/
structure TodoListSnapshot where
  id : Str
  timestamp : PyDatetime
  project_path : Str
  git_branch : Option Str
  todos : List Todo
  context : Option Str
  session_context_id : Option Str
  is_active : Bool
  metadata : Meta
deriving DecidableEq, Repr

/-- One row of the `contexts` table (the `content` and `metadata` TEXT
columns are held in parsed form, see the header comment). -/
structure ContextRow where
  id : Str
  timestamp : Str
  type : Str
  title : Str
  content : ContextContent
  tags : Str
  project_path : Str
  session_id : Option Str
  session_timestamp : Option Str
  metadata : Meta
  chatgpt_response : Option Str
  claude_response : Option Str
deriving DecidableEq, Repr

/-- One row of the `todo_snapshots` table (`is_active` is the stored
INTEGER; `todos` held in parsed form). -/
structure TodoSnapshotRow where
  id : Str
  timestamp : Str
  project_path : Str
  git_branch : Option Str
  context : Option Str
  session_context_id : Option Str
  is_active : Nat
  todos : List Todo
  metadata : Meta
deriving DecidableEq, Repr

/-- The backing SQLite file: both tables, rows in rowid order. -/
structure Store where
  contexts : List ContextRow
  todo_snapshots : List TodoSnapshotRow
deriving DecidableEq, Repr

/-- The empty database `_init_db` creates. -/
def emptyStore : Store := { contexts := [], todo_snapshots := [] }

/-- Opening curly brace character, kept out of string literals. -/
def lbrace : Char := Char.ofNat 123

/-- Closing curly brace character. -/
def rbrace : Char := Char.ofNat 125

/-- JSON string escaping (quote and backslash). -/
def jsonEscape : Str → Str
  | [] => []
  | c :: r =>
    if c = '"' ∨ c = '\\' then '\\' :: c :: jsonEscape r else c :: jsonEscape r

/-- A JSON string literal. -/
def jsonStr (s : Str) : Str := '"' :: (jsonEscape s ++ ['"'])

/-- A JSON array of strings. -/
def jsonStrList (xs : List Str) : Str :=
  '[' :: (pyJoin ',' (xs.map jsonStr) ++ [']'])

/-- One `"key":"value"` member. -/
def jsonStrPair (kv : Str × Str) : Str := jsonStr kv.1 ++ ':' :: jsonStr kv.2

/-- A JSON object of string fields. -/
def jsonStrObj (xs : List (Str × Str)) : Str :=
  lbrace :: (pyJoin ',' (xs.map jsonStrPair) ++ [rbrace])

/-- Encodes an optional slot, `null` when absent. -/
def jsonOpt {α : Type} (f : α → Str) : Option α → Str
  | none => "null".data
  | some x => f x

/-- The serialized text of a `content` column:
`ContextContent.model_dump_json()` (pydantic emits every field, `null`
for absent ones, in declaration order, with compact separators). -/
def contentToJson (c : ContextContent) : Str :=
  lbrace :: ("\"messages\":".data ++ jsonOpt jsonStrList c.messages ++
    ',' :: ("\"code\":".data ++ jsonOpt jsonStrObj c.code ++
      ',' :: ("\"suggestions\":".data ++ jsonOpt jsonStr c.suggestions ++
        ',' :: ("\"errors\":".data ++ jsonOpt jsonStr c.errors ++ [rbrace]))))

/-- ASCII case folding: exactly the folding SQLite's built-in `LIKE`
applies (`sqlite3UpperToLower`, ASCII letters only). -/
def foldAscii (c : Char) : Char :=
  if 'A' ≤ c ∧ c ≤ 'Z' then Char.ofNat (c.toNat + 32) else c

/-- Every suffix of a text value, longest first. -/
def allSuffixes : Str → List Str
  | [] => [[]]
  | c :: s => (c :: s) :: allSuffixes s

/-- SQLite `LIKE` pattern matching: `%` matches any run (equivalently,
the rest of the pattern matches some suffix, which is how SQLite's
backtracking `patternCompare` behaves), `_` any single character,
anything else itself up to ASCII case. -/
def likeMatch : Str → Str → Bool
  | [], s => s.isEmpty
  | c :: p, s =>
    if c = '%' then (allSuffixes s).any fun s2 => likeMatch p s2
    else
      match s with
      | [] => false
      | d :: s2 =>
        if c = '_' then likeMatch p s2
        else decide (foldAscii c = foldAscii d) && likeMatch p s2

/-- The pattern `f"%{q}%"` that `search_contexts` and
`get_contexts_by_tags` build. -/
def likePattern (q : Str) : Str := '%' :: (q ++ ['%'])

/-- Insertion into a timestamp-descending list (`ORDER BY timestamp DESC`
over the TEXT column; equal keys keep an unspecified but deterministic
order, as the spec allows). -/
def insertTsDesc {α : Type} (ts : α → Str) (x : α) : List α → List α
  | [] => [x]
  | y :: ys =>
    if strCmp (ts x) (ts y) = .gt then x :: y :: ys else y :: insertTsDesc ts x ys

/-- Sorting by stored timestamp text, descending. -/
def sortTsDesc {α : Type} (ts : α → Str) : List α → List α
  | [] => []
  | x :: xs => insertTsDesc ts x (sortTsDesc ts xs)

/-- Truthiness of an optional text filter: Python `if type_filter:` treats
both `None` and the empty string as absent. -/
def givenStr : Option Str → Option Str
  | none => none
  | some [] => none
  | some t => some t

/-- The `type = ?` condition of `list_contexts` / `search_contexts`. -/
def typeCond (type_filter : Option Str) (r : ContextRow) : Bool :=
  match givenStr type_filter with
  | none => true
  | some t => decide (r.type = t)

/-- The `project_path = ?` condition of `list_contexts`. -/
def projCond (project_path : Option Str) (r : ContextRow) : Bool :=
  match givenStr project_path with
  | none => true
  | some p => decide (r.project_path = p)

/-- The parameter tuple `save_context` binds into its
`INSERT OR REPLACE INTO contexts` statement. -/
def contextToRow (e : ContextEntry) : ContextRow :=
  { id := e.id
    timestamp := isoformat e.timestamp
    type := e.type
    title := e.title
    content := e.content
    tags := pyJoin ',' e.tags
    project_path := e.project_path
    session_id := e.session_id
    session_timestamp := e.session_timestamp.map isoformat
    metadata := e.metadata
    chatgpt_response := e.chatgpt_response
    claude_response := e.claude_response }

/-- storage.ContextStorage._row_to_context: rebuilds a `ContextEntry` from
a row; `none` when a stored timestamp fails to parse (the read raises).
The `tags` column is split on commas unless it is falsy (empty). -/
def _row_to_context (r : ContextRow) : Option ContextEntry :=
  (fromisoformat r.timestamp).bind fun ts =>
    (match r.session_timestamp with
     | none => some none
     | some st => (fromisoformat st).map some).map fun sts =>
      { id := r.id
        timestamp := ts
        type := r.type
        title := r.title
        content := r.content
        tags := if r.tags = [] then [] else pySplit ',' r.tags
        project_path := r.project_path
        session_id := r.session_id
        session_timestamp := sts
        metadata := r.metadata
        chatgpt_response := r.chatgpt_response
        claude_response := r.claude_response }

/-- storage.ContextStorage.save_context: `INSERT OR REPLACE` keyed on the
`id` primary key — the conflicting row (if any) is deleted and the fresh
row inserted, in one committed transaction. -/
def save_context (e : ContextEntry) (st : Store) : Store :=
  { st with contexts :=
      (st.contexts.filter fun r => decide (r.id ≠ e.id)) ++ [contextToRow e] }

/-- storage.ContextStorage.get_context: point lookup by id, `fetchone`. -/
def get_context (context_id : Str) (st : Store) : Option ContextEntry :=
  match st.contexts.find? (fun r => decide (r.id = context_id)) with
  | none => none
  | some r => _row_to_context r

/-- storage.ContextStorage.list_contexts. -/
def list_contexts (type_filter project_path : Option Str)
    (limit offset : Nat) (st : Store) : Option (List ContextEntry) :=
  let rows := st.contexts.filter fun r =>
    typeCond type_filter r && projCond project_path r
  (((sortTsDesc (fun r : ContextRow => r.timestamp) rows).drop offset).take
      limit).mapM _row_to_context

/-- storage.ContextStorage.search_contexts: three `LIKE '%q%'` tests OR-ed
over title, serialized content and serialized tags, optional type filter,
newest first, truncated. -/
def search_contexts (query : Str) (type_filter : Option Str) (limit : Nat)
    (st : Store) : Option (List ContextEntry) :=
  let rows := st.contexts.filter fun r =>
    (likeMatch (likePattern query) r.title ||
     likeMatch (likePattern query) (contentToJson r.content) ||
     likeMatch (likePattern query) r.tags) && typeCond type_filter r
  ((sortTsDesc (fun r : ContextRow => r.timestamp) rows).take limit).mapM
    _row_to_context

/-- storage.ContextStorage.update_chatgpt_response:
`UPDATE contexts SET chatgpt_response = ? WHERE id = ?`. -/
def update_chatgpt_response (context_id response : Str) (st : Store) : Store :=
  { st with contexts := st.contexts.map fun r =>
      if r.id = context_id then { r with chatgpt_response := some response } else r }

/-- storage.ContextStorage.update_claude_response:
`UPDATE contexts SET claude_response = ? WHERE id = ?`. -/
def update_claude_response (context_id response : Str) (st : Store) : Store :=
  { st with contexts := st.contexts.map fun r =>
      if r.id = context_id then { r with claude_response := some response } else r }

/-- storage.ContextStorage.delete_context: `DELETE FROM contexts WHERE
id = ?`, returning `cursor.rowcount > 0` alongside the new store. -/
def delete_context (context_id : Str) (st : Store) : Bool × Store :=
  let remaining := st.contexts.filter fun r => decide (r.id ≠ context_id)
  (decide (remaining.length < st.contexts.length),
    { st with contexts := remaining })

/-- Outcome of executing a built SQL statement: rows, or a raised
`sqlite3.OperationalError`. -/
inductive SqlResult (α : Type) where
  | ok (val : α)
  | sqlError (msg : Str)
deriving DecidableEq, Repr

/-- True exactly on the `ok` outcome. -/
def SqlResult.isOk {α : Type} : SqlResult α → Bool
  | .ok _ => true
  | .sqlError _ => false

/-- storage.ContextStorage.get_contexts_by_tags: the WHERE clause is the
OR-join of one `tags LIKE ?` per tag; with zero tags the join is empty and
the statement `SELECT * FROM contexts WHERE  ORDER BY ...` is invalid SQL,
so `conn.execute` raises `sqlite3.OperationalError` (`sqlError`). -/
def get_contexts_by_tags (tags : List Str) (limit : Nat) (st : Store) :
    SqlResult (Option (List ContextEntry)) :=
  if tags.isEmpty then
    .sqlError ("sqlite3.OperationalError: near ORDER: syntax error".data)
  else
    .ok (((sortTsDesc (fun r : ContextRow => r.timestamp)
        (st.contexts.filter fun r =>
          tags.any fun t => likeMatch (likePattern t) r.tags)).take
            limit).mapM _row_to_context)

/-- The parameter tuple `save_todo_snapshot` binds into its
`INSERT OR REPLACE INTO todo_snapshots` statement. -/
def snapshotToRow (s : TodoListSnapshot) : TodoSnapshotRow :=
  { id := s.id
    timestamp := isoformat s.timestamp
    project_path := s.project_path
    git_branch := s.git_branch
    context := s.context
    session_context_id := s.session_context_id
    is_active := if s.is_active then 1 else 0
    todos := s.todos
    metadata := s.metadata }

/-- storage.ContextStorage.save_todo_snapshot: when the incoming snapshot
is active, first `UPDATE todo_snapshots SET is_active = 0 WHERE
project_path = ?`, then `INSERT OR REPLACE` the row — both inside the same
connection context, committed together as one transaction. -/
def save_todo_snapshot (s : TodoListSnapshot) (st : Store) : Store :=
  let deactivated :=
    if s.is_active then
      st.todo_snapshots.map fun r =>
        if r.project_path = s.project_path then { r with is_active := 0 } else r
    else st.todo_snapshots
  { st with todo_snapshots :=
      (deactivated.filter fun r => decide (r.id ≠ s.id)) ++ [snapshotToRow s] }

/-- storage.ContextStorage._row_to_todo_snapshot. -/
def _row_to_todo_snapshot (r : TodoSnapshotRow) : Option TodoListSnapshot :=
  (fromisoformat r.timestamp).map fun ts =>
    { id := r.id
      timestamp := ts
      project_path := r.project_path
      git_branch := r.git_branch
      todos := r.todos
      context := r.context
      session_context_id := r.session_context_id
      is_active := decide (r.is_active ≠ 0)
      metadata := r.metadata }

/-- storage.ContextStorage.get_active_todo_snapshot:
`SELECT * FROM todo_snapshots WHERE project_path = ? AND is_active = 1`,
`fetchone`. -/
def get_active_todo_snapshot (project_path : Str) (st : Store) :
    Option TodoListSnapshot :=
  match st.todo_snapshots.find?
      (fun r => decide (r.project_path = project_path) &&
        decide (r.is_active = 1)) with
  | none => none
  | some r => _row_to_todo_snapshot r

/-- The `project_path = ?` condition of `list_todo_snapshots`. -/
def projCondSnap (project_path : Option Str) (r : TodoSnapshotRow) : Bool :=
  match givenStr project_path with
  | none => true
  | some p => decide (r.project_path = p)

/-- storage.ContextStorage.list_todo_snapshots. -/
def list_todo_snapshots (project_path : Option Str) (limit offset : Nat)
    (st : Store) : Option (List TodoListSnapshot) :=
  let rows := st.todo_snapshots.filter fun r => projCondSnap project_path r
  (((sortTsDesc (fun r : TodoSnapshotRow => r.timestamp) rows).drop
      offset).take limit).mapM _row_to_todo_snapshot

/-- Validity of a `ContextEntry` handed to the storage layer: real
datetimes, and the spec's caller-side precondition that no tag embeds the
serialization delimiter. -/
def validEntry (e : ContextEntry) : Bool :=
  validDT e.timestamp &&
  (match e.session_timestamp with
   | none => true
   | some d => validDT d) &&
  e.tags.all (fun t => decide (',' ∉ t))

/-- ASCII-case-insensitive substring containment of `q` in `s`: the
specification's reading of the search predicate. -/
def ciSubstring (q s : Str) : Bool :=
  decide ((q.map foldAscii) <:+: (s.map foldAscii))

/-- The search operation exactly as the specification words it
(§4.1.2 search row): case-insensitive substring match against title,
serialized content and serialized tags, OR across the three fields, the
optional type filter, ordered newest first and truncated. This is the
specification side of the search refinement claim; `search_contexts`
above is the code side. -/
def spec_search_contexts (query : Str) (type_filter : Option Str)
    (limit : Nat) (st : Store) : Option (List ContextEntry) :=
  let rows := st.contexts.filter fun r =>
    (ciSubstring query r.title ||
     ciSubstring query (contentToJson r.content) ||
     ciSubstring query r.tags) && typeCond type_filter r
  ((sortTsDesc (fun r : ContextRow => r.timestamp) rows).take limit).mapM
    _row_to_context

/-- Modelled from the spec: the list of cloud-sync vendor folder names
(§4.1.1 step 1; the provided source tree lacks the concurrency-safety
subprotocol of `storage.py` — only its tests reference it — so it is
reconstructed from the specification: Dropbox, Google Drive, OneDrive and
iCloud Drive markers, matched case-sensitively per path segment). -/
def CLOUD_SYNC_MARKERS : List Str :=
  ["Dropbox".data, "Google Drive".data, "OneDrive".data, "iCloud Drive".data]

/-- Modelled from the spec: `ContextStorage._is_cloud_synced_path`
(missing from the provided source; §4.1.1 step 1 and §9: a pure function
over the resolved absolute path, true when any path segment is a marker
folder name). -/
def _is_cloud_synced_path (resolved_db_path : Str) : Bool :=
  (pySplit '/' resolved_db_path).any fun seg =>
    CLOUD_SYNC_MARKERS.any fun m => decide (seg = m)

/-- SQLite journal modes the engine chooses between. -/
inductive JournalMode
  | wal
  | delete
deriving DecidableEq, Repr

/-- Log levels the connection configuration can emit at. -/
inductive LogLevel
  | warning
  | debug
deriving DecidableEq, Repr

/-- The observable configuration applied to one opened connection. -/
structure ConnConfig where
  busyTimeoutMs : Nat
  journalMode : JournalMode
  logs : List (LogLevel × Str)
deriving DecidableEq, Repr

/-- Modelled from the spec: `ContextStorage._configure_connection`
(missing from the provided source; §4.1.1 steps 2–4). `walAccepted` is
the environment: whether the `PRAGMA journal_mode=WAL` readback confirms
WAL (step 2 allows builds that silently refuse it). Cloud-synced paths
get rollback-journal mode plus a warning; otherwise WAL when confirmed,
else rollback-journal plus a debug note; the 5000 ms busy timeout is set
in every case. -/
def _configure_connection (resolved_db_path : Str) (walAccepted : Bool) :
    ConnConfig :=
  if _is_cloud_synced_path resolved_db_path then
    { busyTimeoutMs := 5000
      journalMode := .delete
      logs := [(.warning,
        "Database is in a cloud-synced directory; using DELETE journal mode instead of WAL".data)] }
  else if walAccepted then
    { busyTimeoutMs := 5000, journalMode := .wal, logs := [] }
  else
    { busyTimeoutMs := 5000
      journalMode := .delete
      logs := [(.debug,
        "WAL journal mode could not be confirmed; falling back to DELETE".data)] }

/-- The public operations of the storage engine, plus initialization. -/
inductive StorageOp
  | initDb
  | saveContext
  | getContext
  | listContexts
  | searchContexts
  | updateChatgptResponse
  | updateClaudeResponse
  | deleteContext
  | getContextsByTags
  | listSessions
  | getSessionContexts
  | saveTodoSnapshot
  | getTodoSnapshot
  | getActiveTodoSnapshot
  | listTodoSnapshots
  | searchTodoSnapshots
  | deleteTodoSnapshot
deriving DecidableEq, Repr

/-- Modelled from the spec: §4.1.1 step 5 — every public operation opens
its own short-lived connection and applies the same connection
configuration before running its statements. -/
def connection_for (_op : StorageOp) (resolved_db_path : Str)
    (walAccepted : Bool) : ConnConfig :=
  _configure_connection resolved_db_path walAccepted

/-- A concrete valid naive timestamp used by the witnesses. -/
def sampleDT : PyDatetime := ⟨2024, 5, 17, 10, 30, 0, 0, none⟩

/-- An all-empty content payload. -/
def sampleContent : ContextContent := ⟨none, none, none, none⟩

/-- A concrete valid entry (the spec's concrete scenario fields). -/
def sampleEntry : ContextEntry :=
  { id := "e1".data, timestamp := sampleDT, type := "code".data,
    title := "Test Context".data, content := sampleContent,
    tags := ["test".data, "sample".data], project_path := "/test/project".data,
    session_id := none, session_timestamp := none, metadata := [],
    chatgpt_response := none, claude_response := none }

/-- The same id as `sampleEntry` with a different title. -/
def sampleEntry2 : ContextEntry := { sampleEntry with title := "Renamed".data }

/-- A valid entry whose tag list is the single empty tag: the tag contains
no delimiter, yet `",".join` serializes it to the empty (falsy) string. -/
def badTagsEntry : ContextEntry :=
  { id := "e2".data, timestamp := sampleDT, type := "conversation".data,
    title := "t".data, content := sampleContent, tags := [[]],
    project_path := "/p".data, session_id := none, session_timestamp := none,
    metadata := [], chatgpt_response := none, claude_response := none }

/-- An entry whose title the wildcard query matches spuriously. -/
def wildEntry : ContextEntry :=
  { id := "w1".data, timestamp := sampleDT, type := "code".data,
    title := "axb".data, content := sampleContent, tags := ["t1".data],
    project_path := "/p".data, session_id := none, session_timestamp := none,
    metadata := [], chatgpt_response := none, claude_response := none }

/-- A first active snapshot for project `/p`. -/
def snapA : TodoListSnapshot :=
  { id := "s1".data, timestamp := sampleDT, project_path := "/p".data,
    git_branch := none, todos := [], context := none,
    session_context_id := none, is_active := true, metadata := [] }

/-- A second active snapshot for the same project. -/
def snapB : TodoListSnapshot :=
  { id := "s2".data, timestamp := sampleDT, project_path := "/p".data,
    git_branch := none,
    todos := [⟨"Task".data, "pending".data, "Doing task".data⟩],
    context := none, session_context_id := none, is_active := true,
    metadata := [] }

/-- Every field of a context row except `chatgpt_response`. -/
def rowSansChatgpt (r : ContextRow) :=
  (r.id, r.timestamp, r.type, r.title, r.content, r.tags, r.project_path,
   r.session_id, r.session_timestamp, r.metadata, r.claude_response)

/-- Every field of a context row except `claude_response`. -/
def rowSansClaude (r : ContextRow) :=
  (r.id, r.timestamp, r.type, r.title, r.content, r.tags, r.project_path,
   r.session_id, r.session_timestamp, r.metadata, r.chatgpt_response)

theorem strCmp_self (s : Str) : strCmp s s = .eq := by
  induction s with
  | nil => rfl
  | cons a s ih => simp [strCmp, ih]

theorem strCmp_eq_iff {s t : Str} : strCmp s t = .eq ↔ s = t := by
  constructor
  · intro h
    induction s generalizing t with
    | nil => cases t with
      | nil => rfl
      | cons b t => simp [strCmp] at h
    | cons a s ih =>
      cases t with
      | nil => simp [strCmp] at h
      | cons b t =>
        simp only [strCmp] at h
        by_cases hab : a < b
        · simp [hab] at h
        · by_cases hba : b < a
          · simp [hab, hba] at h
          · have hab2 : a = b := le_antisymm (not_lt.mp hba) (not_lt.mp hab)
            simp [hab, hba] at h
            rw [hab2, ih h]
  · intro h; rw [h]; exact strCmp_self t

/-- Appending behind chunks of equal length: the comparison decides on the
chunks first and falls through to the tails on equality. -/
theorem strCmp_append {u v : Str} (r1 r2 : Str) (h : u.length = v.length) :
    strCmp (u ++ r1) (v ++ r2) = ((strCmp u v).then (strCmp r1 r2)) := by
  induction u generalizing v with
  | nil =>
    cases v with
    | nil => simp [strCmp, Ordering.then]
    | cons b t => simp at h
  | cons a s ih =>
    cases v with
    | nil => simp at h
    | cons b t =>
      simp only [List.length_cons, Nat.succ.injEq] at h
      simp only [List.cons_append, strCmp]
      by_cases hab : a < b
      · simp [hab, Ordering.then]
      · by_cases hba : b < a
        · simp [hab, hba, Ordering.then]
        · simp [hab, hba, ih h]

theorem strCmp_cons (c : Char) (s t : Str) :
    strCmp (c :: s) (c :: t) = strCmp s t := by
  simp [strCmp]

theorem pySplit_ne_nil (sep : Char) (s : Str) : pySplit sep s ≠ [] := by
  cases s with
  | nil => simp [pySplit]
  | cons c rest =>
    simp only [pySplit]
    by_cases h : c = sep
    · simp [h]
    · simp only [h, if_false]
      cases pySplit sep rest <;> simp

theorem pySplit_no_sep {sep : Char} {s : Str} (h : sep ∉ s) :
    pySplit sep s = [s] := by
  induction s with
  | nil => rfl
  | cons c rest ih =>
    simp only [List.mem_cons, not_or] at h
    have hc : ¬ c = sep := fun hh => h.1 hh.symm
    simp only [pySplit, hc, if_false]
    rw [ih h.2]

theorem pySplit_append_sep {sep : Char} {t : Str} (r : Str) (h : sep ∉ t) :
    pySplit sep (t ++ sep :: r) = t :: pySplit sep r := by
  induction t with
  | nil => simp [pySplit]
  | cons c rest ih =>
    simp only [List.mem_cons, not_or] at h
    have hc : ¬ c = sep := fun hh => h.1 hh.symm
    simp only [List.cons_append, pySplit, hc, if_false]
    have e : rest.append (sep :: r) = rest ++ sep :: r := rfl
    rw [e, ih h.2]

/-- Splitting undoes joining for a nonempty list of separator-free parts. -/
theorem pySplit_pyJoin {sep : Char} {ts : List Str} (hne : ts ≠ [])
    (h : ∀ t ∈ ts, sep ∉ t) : pySplit sep (pyJoin sep ts) = ts := by
  induction ts with
  | nil => exact absurd rfl hne
  | cons t rest ih =>
    cases rest with
    | nil =>
      simp only [pyJoin]
      exact pySplit_no_sep (h t (by simp))
    | cons t2 rest2 =>
      have hjoin : pyJoin sep (t :: t2 :: rest2) = t ++ sep :: pyJoin sep (t2 :: rest2) := rfl
      rw [hjoin, pySplit_append_sep _ (h t (by simp))]
      rw [ih (by simp) (fun x hx => h x (by simp [hx]))]

theorem pyJoin_eq_nil_iff (sep : Char) (ts : List Str) :
    pyJoin sep ts = [] ↔ ts = [] ∨ ts = [[]] := by
  cases ts with
  | nil => simp [pyJoin]
  | cons t rest =>
    cases rest with
    | nil => simp [pyJoin]
    | cons t2 rest2 =>
      have hjoin : pyJoin sep (t :: t2 :: rest2) = t ++ sep :: pyJoin sep (t2 :: rest2) := rfl
      rw [hjoin]
      simp

theorem padDigits_length (k v : Nat) : (padDigits k v).length = k := by
  induction k generalizing v with
  | zero => rfl
  | succ k ih => simp [padDigits, ih]

theorem charDigit_digitChar {d : Nat} (h : d < 10) :
    charDigit (digitChar d) = some d := by
  interval_cases d <;> decide

theorem div_pow_lt_ten {v k : Nat} (h : v < 10 ^ (k + 1)) : v / 10 ^ k < 10 := by
  have hpos : 0 < 10 ^ k := Nat.pos_pow_of_pos k (by norm_num)
  rw [Nat.div_lt_iff_lt_mul hpos]
  have e : 10 ^ (k + 1) = 10 ^ k * 10 := by ring
  omega

theorem parseDigits_padDigits {k v : Nat} (r : Str) (h : v < 10 ^ k) :
    parseDigits k (padDigits k v ++ r) = some (v, r) := by
  induction k generalizing v with
  | zero =>
    have : v = 0 := Nat.lt_one_iff.mp (by simpa using h)
    simp [padDigits, parseDigits, this]
  | succ k ih =>
    have hd : v / 10 ^ k < 10 := div_pow_lt_ten h
    have hm : v % 10 ^ k < 10 ^ k := Nat.mod_lt _ (Nat.pos_pow_of_pos k (by norm_num))
    simp only [padDigits, List.cons_append, parseDigits,
      charDigit_digitChar hd]
    have e : List.append (padDigits k (v % 10 ^ k)) r = padDigits k (v % 10 ^ k) ++ r := rfl
    rw [e, ih hm]
    show some (v / 10 ^ k * 10 ^ k + v % 10 ^ k, r) = some (v, r)
    rw [Nat.div_add_mod']

theorem digitChar_cmp {a b : Nat} (ha : a < 10) (hb : b < 10) :
    strCmp [digitChar a] [digitChar b] = compare a b := by
  interval_cases a <;> interval_cases b <;> decide

/-- Fixed-width zero-padded decimal strings compare exactly like the
numbers they encode. -/
theorem strCmp_padDigits {k a b : Nat} (ha : a < 10 ^ k) (hb : b < 10 ^ k) :
    strCmp (padDigits k a) (padDigits k b) = compare a b := by
  induction k generalizing a b with
  | zero =>
    have ha0 : a = 0 := Nat.lt_one_iff.mp (by simpa using ha)
    have hb0 : b = 0 := Nat.lt_one_iff.mp (by simpa using hb)
    subst ha0; subst hb0
    simp only [padDigits, strCmp]
    exact (Nat.compare_eq_eq.mpr rfl).symm
  | succ k ih =>
    have hda : a / 10 ^ k < 10 := div_pow_lt_ten ha
    have hdb : b / 10 ^ k < 10 := div_pow_lt_ten hb
    have hma : a % 10 ^ k < 10 ^ k := Nat.mod_lt _ (Nat.pos_pow_of_pos k (by norm_num))
    have hmb : b % 10 ^ k < 10 ^ k := Nat.mod_lt _ (Nat.pos_pow_of_pos k (by norm_num))
    have hsplit : padDigits (k + 1) a = [digitChar (a / 10 ^ k)] ++ padDigits k (a % 10 ^ k) := rfl
    have hsplitb : padDigits (k + 1) b = [digitChar (b / 10 ^ k)] ++ padDigits k (b % 10 ^ k) := rfl
    have happ := strCmp_append (u := [digitChar (a / 10 ^ k)])
      (v := [digitChar (b / 10 ^ k)])
      (padDigits k (a % 10 ^ k)) (padDigits k (b % 10 ^ k)) (by simp)
    rw [hsplit, hsplitb, happ, digitChar_cmp hda hdb, ih hma hmb]
    have hdm1 := Nat.div_add_mod a (10 ^ k)
    have hdm2 := Nat.div_add_mod b (10 ^ k)
    rcases Nat.lt_trichotomy (a / 10 ^ k) (b / 10 ^ k) with hq | hq | hq
    · rw [(Nat.compare_eq_lt).mpr hq]
      have hab : a < b := by
        have h1 : a < 10 ^ k * (a / 10 ^ k) + 10 ^ k := by omega
        have h2 : 10 ^ k * (a / 10 ^ k) + 10 ^ k = 10 ^ k * (a / 10 ^ k + 1) := by ring
        have h3 : 10 ^ k * (a / 10 ^ k + 1) ≤ 10 ^ k * (b / 10 ^ k) :=
          Nat.mul_le_mul_left _ hq
        omega
      rw [(Nat.compare_eq_lt).mpr hab]
      rfl
    · rw [(Nat.compare_eq_eq).mpr hq]
      have hgh : 10 ^ k * (a / 10 ^ k) = 10 ^ k * (b / 10 ^ k) := by rw [hq]
      simp only [Ordering.then]
      rcases Nat.lt_trichotomy (a % 10 ^ k) (b % 10 ^ k) with hr | hr | hr
      · rw [(Nat.compare_eq_lt).mpr hr, (Nat.compare_eq_lt).mpr (by omega)]
      · rw [(Nat.compare_eq_eq).mpr hr, (Nat.compare_eq_eq).mpr (by omega)]
      · rw [(Nat.compare_eq_gt).mpr hr, (Nat.compare_eq_gt).mpr (by omega)]
    · rw [(Nat.compare_eq_gt).mpr hq]
      have hab : b < a := by
        have h1 : b < 10 ^ k * (b / 10 ^ k) + 10 ^ k := by omega
        have h2 : 10 ^ k * (b / 10 ^ k) + 10 ^ k = 10 ^ k * (b / 10 ^ k + 1) := by ring
        have h3 : 10 ^ k * (b / 10 ^ k + 1) ≤ 10 ^ k * (a / 10 ^ k) :=
          Nat.mul_le_mul_left _ hq
        omega
      rw [(Nat.compare_eq_gt).mpr hab]
      rfl

theorem parseMicroPart_isoMicro {us : Nat} (h : us < 10 ^ 6) (o : Option Int) :
    parseMicroPart (isoMicro us ++ isoOffset o) = some (us, isoOffset o) := by
  by_cases h0 : us = 0
  · subst h0
    simp only [isoMicro, if_pos rfl, List.nil_append]
    cases o with
    | none => rfl
    | some o =>
      by_cases hs : 0 ≤ o <;>
        simp [isoOffset, hs, parseMicroPart]
  · simp only [isoMicro, if_neg h0, List.cons_append, parseMicroPart,
      if_pos rfl]
    exact parseDigits_padDigits _ h

theorem parseOffsetPart_isoOffset {o : Option Int}
    (h : match o with | none => True | some oo => -1439 ≤ oo ∧ oo ≤ 1439) :
    parseOffsetPart (isoOffset o) = some o := by
  cases o with
  | none => rfl
  | some o =>
    have hb : (-1439 ≤ o ∧ o ≤ 1439) := h
    have hdiv : o.natAbs / 60 < 10 ^ 2 := by
      have : o.natAbs ≤ 1439 := by omega
      omega
    have hmod : o.natAbs % 60 < 10 ^ 2 := by
      have := Nat.mod_lt o.natAbs (show 0 < 60 by norm_num)
      omega
    have hval : ∀ c : Char, c = '+' ∨ c = '-' →
        parseOffsetPart (c :: (padDigits 2 (o.natAbs / 60) ++ ':' ::
          padDigits 2 (o.natAbs % 60))) =
        some (some (if c = '+' then ((o.natAbs / 60 * 60 + o.natAbs % 60 : Nat) : Int)
                    else -((o.natAbs / 60 * 60 + o.natAbs % 60 : Nat) : Int))) := by
      intro c hc
      have e2 : padDigits 2 (o.natAbs % 60) = padDigits 2 (o.natAbs % 60) ++ [] := by
        simp
      simp only [parseOffsetPart, if_pos hc, parseDigits_padDigits _ hdiv,
        Option.some_bind]
      simp only [expectCh, if_pos rfl, Option.some_bind]
      rw [e2]
      simp only [if_true, Option.some_bind]
      rw [parseDigits_padDigits _ hmod]
      simp
    have hdm : (o.natAbs / 60 * 60 + o.natAbs % 60 : Nat) = o.natAbs :=
      Nat.div_add_mod' _ _
    by_cases hs : 0 ≤ o
    · have habs : (o.natAbs : Int) = o := Int.natAbs_of_nonneg hs
      simp only [isoOffset, if_pos hs, hval '+' (Or.inl rfl)]
      simp [hdm, habs]
    · have habs : (o.natAbs : Int) = -o := Int.ofNat_natAbs_of_nonpos (by omega)
      simp only [isoOffset, if_neg hs, hval '-' (Or.inr rfl)]
      simp [hdm, habs]

theorem expectCh_cons (c : Char) (r : Str) : expectCh c (c :: r) = some r := by
  simp [expectCh]

/-- Unpacked field bounds of a valid datetime. -/
theorem validDT_bounds {d : PyDatetime} (h : validDT d = true) :
    d.year < 10 ^ 4 ∧ d.month < 10 ^ 2 ∧ d.day < 10 ^ 2 ∧ d.hour < 10 ^ 2 ∧
    d.minute < 10 ^ 2 ∧ d.second < 10 ^ 2 ∧ d.microsecond < 10 ^ 6 ∧
    (match d.utcoffsetMinutes with
     | none => True
     | some oo => -1439 ≤ oo ∧ oo ≤ 1439) := by
  simp only [validDT, Bool.and_eq_true, decide_eq_true_eq] at h
  obtain ⟨⟨⟨⟨⟨⟨⟨⟨⟨⟨_, hy⟩, _⟩, hmo⟩, _⟩, hd⟩, hh⟩, hmi⟩, hs⟩, hus⟩, hoff⟩ := h
  refine ⟨by omega, by omega, by omega, by omega, by omega, by omega, by omega, ?_⟩
  cases ho : d.utcoffsetMinutes with
  | none => trivial
  | some o =>
    rw [ho] at hoff
    simp only [Bool.and_eq_true, decide_eq_true_eq] at hoff
    exact hoff

/-- Parsing a stored timestamp recovers the exact datetime that was
serialized: `datetime.fromisoformat` inverts `datetime.isoformat`. -/
theorem fromisoformat_isoformat {d : PyDatetime} (h : validDT d = true) :
    fromisoformat (isoformat d) = some d := by
  obtain ⟨hy, hmo, hd, hh, hmi, hs, hus, hoff⟩ := validDT_bounds h
  show fromisoformat
    (padDigits 4 d.year ++ '-' ::
      (padDigits 2 d.month ++ '-' ::
        (padDigits 2 d.day ++ 'T' ::
          (padDigits 2 d.hour ++ ':' ::
            (padDigits 2 d.minute ++ ':' ::
              (padDigits 2 d.second ++
                (isoMicro d.microsecond ++ isoOffset d.utcoffsetMinutes))))))) = some d
  rw [fromisoformat, parseDigits_padDigits _ hy]
  simp only [Option.some_bind]
  rw [expectCh_cons]
  simp only [Option.some_bind]
  rw [parseDigits_padDigits _ hmo]
  simp only [Option.some_bind]
  rw [expectCh_cons]
  simp only [Option.some_bind]
  rw [parseDigits_padDigits _ hd]
  simp only [Option.some_bind]
  rw [expectCh_cons]
  simp only [Option.some_bind]
  rw [parseDigits_padDigits _ hh]
  simp only [Option.some_bind]
  rw [expectCh_cons]
  simp only [Option.some_bind]
  rw [parseDigits_padDigits _ hmi]
  simp only [Option.some_bind]
  rw [expectCh_cons]
  simp only [Option.some_bind]
  rw [parseDigits_padDigits _ hs]
  simp only [Option.some_bind]
  rw [parseMicroPart_isoMicro hus _]
  simp only [Option.some_bind]
  rw [parseOffsetPart_isoOffset hoff]
  rfl

theorem ordering_then_eq (o : Ordering) : o.then .eq = o := by
  cases o <;> rfl

theorem strCmp_padChunk {k a b : Nat} (ha : a < 10 ^ k) (hb : b < 10 ^ k)
    (r1 r2 : Str) :
    strCmp (padDigits k a ++ r1) (padDigits k b ++ r2) =
      (compare a b).then (strCmp r1 r2) := by
  have happ := strCmp_append (u := padDigits k a) (v := padDigits k b) r1 r2
    (by rw [padDigits_length, padDigits_length])
  rw [happ, strCmp_padDigits ha hb]

/-- The microseconds-plus-offset tail of two encodings with identical
offset suffix compares exactly like the microsecond fields. -/
theorem strCmp_microOff {us1 us2 : Nat} (h1 : us1 < 10 ^ 6) (h2 : us2 < 10 ^ 6)
    (o : Option Int) :
    strCmp (isoMicro us1 ++ isoOffset o) (isoMicro us2 ++ isoOffset o) =
      compare us1 us2 := by
  by_cases hz1 : us1 = 0 <;> by_cases hz2 : us2 = 0
  · subst hz1; subst hz2
    simp only [isoMicro, if_pos rfl, List.nil_append, strCmp_self]
    exact (Nat.compare_eq_eq.mpr rfl).symm
  · subst hz1
    rw [(Nat.compare_eq_lt).mpr (by omega)]
    simp only [isoMicro, if_pos rfl, if_neg hz2, List.nil_append,
      List.cons_append]
    cases o with
    | none => rfl
    | some o =>
      by_cases hsgn : 0 ≤ o <;>
        simp [isoOffset, hsgn, strCmp, show ('+' : Char) < '.' from by decide,
          show ('-' : Char) < '.' from by decide]
  · subst hz2
    rw [(Nat.compare_eq_gt).mpr (by omega)]
    simp only [isoMicro, if_pos rfl, if_neg hz1, List.nil_append,
      List.cons_append]
    cases o with
    | none => rfl
    | some o =>
      by_cases hsgn : 0 ≤ o <;>
        simp [isoOffset, hsgn, strCmp, show ¬ ('.' : Char) < '+' from by decide,
          show ¬ ('.' : Char) < '-' from by decide,
          show ('+' : Char) < '.' from by decide,
          show ('-' : Char) < '.' from by decide]
  · simp only [isoMicro, if_neg hz1, if_neg hz2, List.cons_append, strCmp_cons]
    rw [strCmp_padChunk h1 h2, strCmp_self, ordering_then_eq]

/-- Encodings of two valid datetimes carrying the same UTC offset compare
lexicographically exactly as their wall-clock field tuples do. -/
theorem strCmp_isoformat {d1 d2 : PyDatetime} (h1 : validDT d1 = true)
    (h2 : validDT d2 = true)
    (hoff : d1.utcoffsetMinutes = d2.utcoffsetMinutes) :
    strCmp (isoformat d1) (isoformat d2) = tupleCmp d1 d2 := by
  obtain ⟨hy1, hmo1, hd1, hh1, hmi1, hs1, hus1, _⟩ := validDT_bounds h1
  obtain ⟨hy2, hmo2, hd2, hh2, hmi2, hs2, hus2, _⟩ := validDT_bounds h2
  show strCmp
      (padDigits 4 d1.year ++ '-' ::
        (padDigits 2 d1.month ++ '-' ::
          (padDigits 2 d1.day ++ 'T' ::
            (padDigits 2 d1.hour ++ ':' ::
              (padDigits 2 d1.minute ++ ':' ::
                (padDigits 2 d1.second ++
                  (isoMicro d1.microsecond ++ isoOffset d1.utcoffsetMinutes)))))))
      (padDigits 4 d2.year ++ '-' ::
        (padDigits 2 d2.month ++ '-' ::
          (padDigits 2 d2.day ++ 'T' ::
            (padDigits 2 d2.hour ++ ':' ::
              (padDigits 2 d2.minute ++ ':' ::
                (padDigits 2 d2.second ++
                  (isoMicro d2.microsecond ++ isoOffset d2.utcoffsetMinutes)))))))
      = tupleCmp d1 d2
  rw [hoff, strCmp_padChunk hy1 hy2, strCmp_cons, strCmp_padChunk hmo1 hmo2,
    strCmp_cons, strCmp_padChunk hd1 hd2, strCmp_cons,
    strCmp_padChunk hh1 hh2, strCmp_cons, strCmp_padChunk hmi1 hmi2,
    strCmp_cons, strCmp_padChunk hs1 hs2,
    strCmp_microOff hus1 hus2 d2.utcoffsetMinutes]
  rfl

/-- On a shared UTC offset the textual encoding is injective: full
precision of every wall-clock field is preserved. -/
theorem isoformat_inj {d1 d2 : PyDatetime} (h1 : validDT d1 = true)
    (h2 : validDT d2 = true)
    (hoff : d1.utcoffsetMinutes = d2.utcoffsetMinutes) :
    isoformat d1 = isoformat d2 ↔ d1 = d2 := by
  constructor
  · intro he
    have hc : strCmp (isoformat d1) (isoformat d2) = .eq := strCmp_eq_iff.mpr he
    rw [strCmp_isoformat h1 h2 hoff] at hc
    have split : ∀ o p : Ordering, o.then p = .eq → o = .eq ∧ p = .eq := by
      intro o p hop
      cases o
      · exact absurd hop (by simp [Ordering.then])
      · exact ⟨rfl, hop⟩
      · exact absurd hop (by simp [Ordering.then])
    unfold tupleCmp at hc
    obtain ⟨e1, hc⟩ := split _ _ hc
    obtain ⟨e2, hc⟩ := split _ _ hc
    obtain ⟨e3, hc⟩ := split _ _ hc
    obtain ⟨e4, hc⟩ := split _ _ hc
    obtain ⟨e5, hc⟩ := split _ _ hc
    obtain ⟨e6, e7⟩ := split _ _ hc
    cases d1; cases d2
    simp only at e1 e2 e3 e4 e5 e6 e7 hoff
    rw [Nat.compare_eq_eq] at e1 e2 e3 e4 e5 e6 e7
    simp only [PyDatetime.mk.injEq]
    exact ⟨e1, e2, e3, e4, e5, e6, e7, hoff⟩
  · intro he; rw [he]

theorem mem_allSuffixes {s2 s : Str} : s2 ∈ allSuffixes s ↔ s2 <:+ s := by
  induction s with
  | nil => simp [allSuffixes, List.suffix_nil]
  | cons c s ih =>
    simp only [allSuffixes, List.mem_cons, ih, List.suffix_cons_iff]

theorem likeMatch_lit_nil {c : Char} (h : c ≠ '%') (p : Str) :
    likeMatch (c :: p) [] = false := by
  simp [likeMatch, h]

theorem likeMatch_lit_cons {c : Char} (hc1 : c ≠ '%') (hc2 : c ≠ '_')
    (p : Str) (d : Char) (s : Str) :
    likeMatch (c :: p) (d :: s) =
      (decide (foldAscii c = foldAscii d) && likeMatch p s) := by
  simp [likeMatch, hc1, hc2]

theorem likeMatch_pct {p : Str} (s : Str) :
    likeMatch ('%' :: p) s = true ↔
      ∃ s2, s2 <:+ s ∧ likeMatch p s2 = true := by
  show (if ('%' : Char) = '%' then (allSuffixes s).any fun s2 => likeMatch p s2
      else _) = true ↔ _
  rw [if_pos rfl, List.any_eq_true]
  constructor
  · rintro ⟨s2, hs2, h⟩; exact ⟨s2, mem_allSuffixes.mp hs2, h⟩
  · rintro ⟨s2, hs2, h⟩; exact ⟨s2, mem_allSuffixes.mpr hs2, h⟩

theorem likeMatch_pct_nil (s : Str) : likeMatch ['%'] s = true := by
  rw [likeMatch_pct]
  exact ⟨[], List.nil_suffix, rfl⟩

theorem likeMatch_plain {q : Str} (hq : ∀ c ∈ q, c ≠ '%' ∧ c ≠ '_')
    (s : Str) :
    likeMatch (q ++ ['%']) s = true ↔
      (q.map foldAscii) <+: (s.map foldAscii) := by
  induction q generalizing s with
  | nil => simp [likeMatch_pct_nil s, List.nil_prefix]
  | cons c q2 ih =>
    have hc := hq c (by simp)
    cases s with
    | nil =>
      rw [List.cons_append, likeMatch_lit_nil hc.1]
      simp only [List.map_cons, List.map_nil]
      constructor
      · intro h; cases h
      · intro h
        have := List.IsPrefix.length_le h
        simp at this
    | cons d s2 =>
      rw [List.cons_append, likeMatch_lit_cons hc.1 hc.2]
      simp only [List.map_cons, List.cons_prefix_cons, Bool.and_eq_true,
        decide_eq_true_eq]
      rw [ih (fun x hx => hq x (by simp [hx]))]

/-- For a wildcard-free needle, SQLite LIKE with the `%needle%` pattern is
exactly ASCII-case-insensitive substring containment. -/
theorem likeMatch_likePattern {q : Str} (hq : ∀ c ∈ q, c ≠ '%' ∧ c ≠ '_')
    (s : Str) :
    likeMatch (likePattern q) s = true ↔
      (q.map foldAscii) <:+: (s.map foldAscii) := by
  rw [likePattern]
  rw [likeMatch_pct]
  constructor
  · rintro ⟨s2, hs2, h⟩
    rw [likeMatch_plain hq] at h
    exact List.infix_iff_prefix_suffix.mpr
      ⟨s2.map foldAscii, h, List.IsSuffix.map _ hs2⟩
  · intro h
    obtain ⟨t, hpre, hsuf⟩ := List.infix_iff_prefix_suffix.mp h
    obtain ⟨u, hu⟩ := hsuf
    obtain ⟨s1, s2, hsplit, _, hmap2⟩ := List.map_eq_append_iff.mp hu.symm
    refine ⟨s2, ?_, ?_⟩
    · rw [hsplit]; exact List.suffix_append s1 s2
    · rw [likeMatch_plain hq, hmap2]; exact hpre

theorem validEntry_parts {e : ContextEntry} (h : validEntry e = true) :
    validDT e.timestamp = true ∧
    (match e.session_timestamp with
     | none => True
     | some d => validDT d = true) ∧
    ∀ t ∈ e.tags, ',' ∉ t := by
  simp only [validEntry, Bool.and_eq_true, List.all_eq_true,
    decide_eq_true_eq] at h
  obtain ⟨⟨h1, h2⟩, h3⟩ := h
  refine ⟨h1, ?_, h3⟩
  cases hs : e.session_timestamp with
  | none => trivial
  | some d => rw [hs] at h2; exact h2

/-- Reading back the row `save_context` writes recovers the entry exactly,
for a valid entry whose tag list is not the single empty tag. -/
theorem _row_to_context_contextToRow {e : ContextEntry}
    (hv : validEntry e = true) (ht : e.tags ≠ [[]]) :
    _row_to_context (contextToRow e) = some e := by
  obtain ⟨h1, h2, h3⟩ := validEntry_parts hv
  unfold _row_to_context contextToRow
  simp only
  rw [fromisoformat_isoformat h1, Option.some_bind]
  have hsess : (match e.session_timestamp.map isoformat with
      | none => some none
      | some st => (fromisoformat st).map some) = some e.session_timestamp := by
    cases hs : e.session_timestamp with
    | none => simp
    | some d =>
      rw [hs] at h2
      simp [fromisoformat_isoformat h2]
  rw [hsess]
  simp only [Option.map_some']
  have htags : (if pyJoin ',' e.tags = [] then [] else
      pySplit ',' (pyJoin ',' e.tags)) = e.tags := by
    by_cases hnil : e.tags = []
    · rw [hnil]
      simp [pyJoin]
    · have hjoin : pyJoin ',' e.tags ≠ [] := by
        rw [Ne, pyJoin_eq_nil_iff]
        push_neg
        exact ⟨hnil, ht⟩
      rw [if_neg hjoin, pySplit_pyJoin hnil h3]
  rw [htags]

/-- The title always survives the write/read cycle on a valid entry. -/
theorem _row_to_context_title {e : ContextEntry} (hv : validEntry e = true) :
    (_row_to_context (contextToRow e)).map (fun x => x.title) =
      some e.title := by
  obtain ⟨h1, h2, _⟩ := validEntry_parts hv
  unfold _row_to_context contextToRow
  simp only
  rw [fromisoformat_isoformat h1, Option.some_bind]
  cases hs : e.session_timestamp with
  | none => simp
  | some d =>
    rw [hs] at h2
    simp [fromisoformat_isoformat h2]

/-- Wildcard-free LIKE containment patterns coincide with the ASCII
case-insensitive substring predicate. -/
theorem likeMatch_eq_ciSubstring {q : Str}
    (hq : ∀ c ∈ q, c ≠ '%' ∧ c ≠ '_') (s : Str) :
    likeMatch (likePattern q) s = ciSubstring q s := by
  have h := likeMatch_likePattern hq s
  unfold ciSubstring
  by_cases hc : (q.map foldAscii) <:+: (s.map foldAscii)
  · simp [h.mpr hc, hc]
  · have hne : likeMatch (likePattern q) s ≠ true := fun hh => hc (h.mp hh)
    simp only [Bool.not_eq_true] at hne
    simp [hne, hc]

theorem mem_insertTsDesc {α : Type} (ts : α → Str) (x y : α) (l : List α) :
    y ∈ insertTsDesc ts x l ↔ y = x ∨ y ∈ l := by
  induction l with
  | nil => simp [insertTsDesc]
  | cons z zs ih =>
    simp only [insertTsDesc]
    by_cases h : strCmp (ts x) (ts z) = .gt
    · simp [h]
    · simp only [h, if_false, List.mem_cons, ih]
      tauto

theorem mem_sortTsDesc {α : Type} (ts : α → Str) {y : α} {l : List α} :
    y ∈ sortTsDesc ts l ↔ y ∈ l := by
  induction l with
  | nil => simp [sortTsDesc]
  | cons z zs ih =>
    simp only [sortTsDesc, mem_insertTsDesc, List.mem_cons, ih]

theorem mapM_option_isSome {α β : Type} (f : α → Option β) (l : List α)
    (h : ∀ x ∈ l, (f x).isSome) : ∃ ys, l.mapM f = some ys := by
  induction l with
  | nil => exact ⟨[], rfl⟩
  | cons a l2 ih =>
    obtain ⟨b, hb⟩ := Option.isSome_iff_exists.mp (h a (by simp))
    obtain ⟨ys, hys⟩ := ih (fun x hx => h x (by simp [hx]))
    refine ⟨b :: ys, ?_⟩
    rw [List.mapM_cons, hb, hys]
    rfl

/-- C1: saving an active snapshot leaves exactly one active row for its
project — the freshly inserted one — whatever the prior store held: the
deactivating UPDATE and the INSERT happen in the same transaction, so
after every `save_todo_snapshot` call with `is_active = true` the only
active snapshot of that `project_path` is the saved one, and
`get_active_todo_snapshot` finds exactly it. -/
theorem save_todo_snapshot_single_active (s : TodoListSnapshot) (st : Store)
    (h : s.is_active = true) :
    ((save_todo_snapshot s st).todo_snapshots.filter fun r =>
        decide (r.project_path = s.project_path) && decide (r.is_active ≠ 0))
      = [snapshotToRow s] ∧
    get_active_todo_snapshot s.project_path (save_todo_snapshot s st) =
      _row_to_todo_snapshot (snapshotToRow s) := by
  have hrows : (save_todo_snapshot s st).todo_snapshots =
      ((st.todo_snapshots.map fun r =>
        if r.project_path = s.project_path then { r with is_active := 0 }
        else r).filter fun r => decide (r.id ≠ s.id)) ++ [snapshotToRow s] := by
    simp [save_todo_snapshot, h]
  have hdead : ∀ r ∈ ((st.todo_snapshots.map fun r =>
        if r.project_path = s.project_path then { r with is_active := 0 }
        else r).filter fun r => decide (r.id ≠ s.id)),
      ¬ (r.project_path = s.project_path ∧ r.is_active ≠ 0) := by
    intro r hr
    obtain ⟨r0, _, hf⟩ := List.mem_map.mp (List.mem_of_mem_filter hr)
    by_cases hp : r0.project_path = s.project_path
    · rw [if_pos hp] at hf
      rw [← hf]
      simp
    · rw [if_neg hp] at hf
      rw [← hf]
      simp [hp]
  constructor
  · rw [hrows, List.filter_append]
    have h1 : (((st.todo_snapshots.map fun r =>
        if r.project_path = s.project_path then { r with is_active := 0 }
        else r).filter fun r => decide (r.id ≠ s.id)).filter fun r =>
          decide (r.project_path = s.project_path) &&
          decide (r.is_active ≠ 0)) = [] :=
      List.filter_eq_nil_iff.mpr (fun r hr => by simpa using hdead r hr)
    rw [h1, List.nil_append]
    simp [List.filter, snapshotToRow, h]
  · unfold get_active_todo_snapshot
    rw [hrows, List.find?_append]
    have h1 : List.find? (fun r =>
        decide (r.project_path = s.project_path) &&
        decide (r.is_active = 1))
        ((st.todo_snapshots.map fun r =>
          if r.project_path = s.project_path then { r with is_active := 0 }
          else r).filter fun r => decide (r.id ≠ s.id)) = none :=
      List.find?_eq_none.mpr (fun r hr => by
        have hd := hdead r hr
        simp only [Bool.and_eq_true, decide_eq_true_eq]
        intro hcon
        exact hd ⟨hcon.1, by omega⟩)
    rw [h1, Option.none_or]
    have h2 : List.find? (fun r =>
        decide (r.project_path = s.project_path) &&
        decide (r.is_active = 1)) [snapshotToRow s] =
        some (snapshotToRow s) := by
      simp [List.find?, snapshotToRow, h]
    rw [h2]

/-- C1 witness: two consecutive active saves for project `/p`. -/
theorem save_todo_snapshot_single_active_witness :
    ((save_todo_snapshot snapB (save_todo_snapshot snapA
        emptyStore)).todo_snapshots.filter fun r =>
        decide (r.project_path = snapB.project_path) &&
        decide (r.is_active ≠ 0)) = [snapshotToRow snapB] ∧
    get_active_todo_snapshot snapB.project_path
        (save_todo_snapshot snapB (save_todo_snapshot snapA emptyStore)) =
      _row_to_todo_snapshot (snapshotToRow snapB) :=
  save_todo_snapshot_single_active snapB
    (save_todo_snapshot snapA emptyStore) (by decide)

/-- C2 counterexample: `badTagsEntry` is a valid entry — its single tag is
the empty string, which contains no delimiter character — yet the
save/read round trip loses the tag: `",".join([""])` is the empty string,
which `_row_to_context` reads back as the empty tag list. So the claim as
stated fails at this entry. -/
theorem context_roundtrip_counterexample :
    validEntry badTagsEntry = true ∧ badTagsEntry.tags = [[]] ∧
    get_context badTagsEntry.id (save_context badTagsEntry emptyStore) ≠
      some badTagsEntry ∧
    (get_context badTagsEntry.id
        (save_context badTagsEntry emptyStore)).map (fun e => e.tags) =
      some [] := by decide

/-- C2 (amended): for every valid ContextEntry — timestamps real
datetimes, no tag containing the delimiter — whose tag list is not the
single-element list holding the empty string, saving and reading back by
id returns the entry field-for-field, from any prior store state. -/
theorem context_roundtrip (e : ContextEntry) (st : Store)
    (hv : validEntry e = true) (ht : e.tags ≠ [[]]) :
    get_context e.id (save_context e st) = some e := by
  unfold get_context save_context
  simp only
  rw [List.find?_append]
  have h1 : (st.contexts.filter fun r => decide (r.id ≠ e.id)).find?
      (fun r => decide (r.id = e.id)) = none :=
    List.find?_eq_none.mpr (fun r hr => by
      have hne := List.of_mem_filter hr
      simp only [decide_eq_true_eq] at hne ⊢
      exact hne)
  rw [h1, Option.none_or]
  have h2 : List.find? (fun r => decide (r.id = e.id)) [contextToRow e] =
      some (contextToRow e) := by
    simp [List.find?, contextToRow]
  rw [h2]
  exact _row_to_context_contextToRow hv ht

/-- C2 witness: the concrete sample entry round trips. -/
theorem context_roundtrip_witness :
    get_context sampleEntry.id (save_context sampleEntry emptyStore) =
      some sampleEntry :=
  context_roundtrip sampleEntry emptyStore (by decide) (by decide)

/-- C3: on any resolved path containing a cloud-sync marker folder name,
connection configuration selects rollback-journal (DELETE) mode — never
WAL, whatever the environment would have answered — and emits a warning
log entry. -/
theorem cloud_path_delete_mode (p : Str) (walAccepted : Bool)
    (h : _is_cloud_synced_path p = true) :
    (_configure_connection p walAccepted).journalMode = .delete ∧
    ∃ msg, (LogLevel.warning, msg) ∈ (_configure_connection p walAccepted).logs := by
  unfold _configure_connection
  rw [if_pos h]
  refine ⟨rfl, ⟨("Database is in a cloud-synced directory; using DELETE journal mode instead of WAL".data), ?_⟩⟩
  simp

/-- C3 witness: a Dropbox path. -/
theorem cloud_path_delete_mode_witness :
    (_configure_connection "/Users/u/Dropbox/ctx.db".data true).journalMode =
      .delete ∧
    ∃ msg, (LogLevel.warning, msg) ∈
      (_configure_connection "/Users/u/Dropbox/ctx.db".data true).logs :=
  cloud_path_delete_mode "/Users/u/Dropbox/ctx.db".data true (by decide)

/-- C4: every connection any storage operation (initialization included)
opens is configured with a 5000 ms busy-wait timeout, in every branch of
the journal-mode decision. -/
theorem busy_timeout_every_connection (op : StorageOp) (p : Str)
    (walAccepted : Bool) :
    (connection_for op p walAccepted).busyTimeoutMs = 5000 := by
  by_cases h : _is_cloud_synced_path p = true
  · simp [connection_for, _configure_connection, h]
  · by_cases hw : walAccepted = true <;>
      simp [connection_for, _configure_connection, h, hw]

/-- C5: `save_context` is an upsert keyed on id: after saving `e1` and
then `e2` with the same id, exactly one stored row carries that id, a
lookup returns the second title, and saving the identical entry twice is
the same as saving it once. -/
theorem save_context_upsert (e1 e2 : ContextEntry) (st : Store)
    (hid : e2.id = e1.id) (hv : validEntry e2 = true) :
    (((save_context e2 (save_context e1 st)).contexts.filter fun r =>
        decide (r.id = e1.id)).length = 1) ∧
    ((get_context e1.id (save_context e2 (save_context e1 st))).map
        (fun e => e.title) = some e2.title) ∧
    (∀ e : ContextEntry, ∀ st2 : Store,
      save_context e (save_context e st2) = save_context e st2) := by
  refine ⟨?_, ?_, ?_⟩
  · show ((((save_context e1 st).contexts.filter
        (fun r : ContextRow => decide (r.id ≠ e2.id))) ++
          [contextToRow e2]).filter
        (fun r : ContextRow => decide (r.id = e1.id))).length = 1
    rw [List.filter_append]
    have h1 : (((save_context e1 st).contexts.filter fun r =>
        decide (r.id ≠ e2.id)).filter fun r => decide (r.id = e1.id)) = [] :=
      List.filter_eq_nil_iff.mpr (fun r hr => by
        have hne := List.of_mem_filter hr
        simp only [decide_eq_true_eq] at hne ⊢
        rw [hid] at hne
        exact hne)
    rw [h1, List.nil_append]
    simp [List.filter, contextToRow, hid]
  · show (match ((((save_context e1 st).contexts.filter
        (fun r : ContextRow => decide (r.id ≠ e2.id))) ++
          [contextToRow e2]).find?
        (fun r : ContextRow => decide (r.id = e1.id))) with
      | none => none
      | some r => _row_to_context r).map
        (fun e : ContextEntry => e.title) = some e2.title
    rw [List.find?_append]
    have h1 : (((save_context e1 st).contexts.filter fun r =>
        decide (r.id ≠ e2.id)).find? fun r => decide (r.id = e1.id)) = none :=
      List.find?_eq_none.mpr (fun r hr => by
        have hne := List.of_mem_filter hr
        simp only [decide_eq_true_eq] at hne ⊢
        rw [hid] at hne
        exact hne)
    rw [h1, Option.none_or]
    have h2 : (List.find? (fun r => decide (r.id = e1.id))
        [contextToRow e2]) = some (contextToRow e2) := by
      simp [List.find?, contextToRow, hid]
    rw [h2]
    exact _row_to_context_title hv
  · intro e st2
    unfold save_context
    simp only
    congr 1
    rw [List.filter_append, List.filter_filter]
    have h1 : (List.filter (fun r => decide (r.id ≠ e.id))
        [contextToRow e]) = [] := by
      simp [List.filter, contextToRow]
    rw [h1, List.append_nil]
    congr 1
    apply List.filter_congr
    intro r _
    rw [Bool.and_self]

/-- C5 witness: two saves under the shared id, the second with a changed
title. -/
theorem save_context_upsert_witness :
    (((save_context sampleEntry2 (save_context sampleEntry
        emptyStore)).contexts.filter fun r =>
        decide (r.id = sampleEntry.id)).length = 1) ∧
    ((get_context sampleEntry.id (save_context sampleEntry2
        (save_context sampleEntry emptyStore))).map (fun e => e.title) =
      some sampleEntry2.title) ∧
    (∀ e : ContextEntry, ∀ st2 : Store,
      save_context e (save_context e st2) = save_context e st2) :=
  save_context_upsert sampleEntry sampleEntry2 emptyStore (by decide)
    (by decide)

/-- C6 counterexample: with the single stored entry titled `axb`, the
query `a%b` — a legal query string — is returned as a match by
`search_contexts` although it is not a case-insensitive substring of the
title, the serialized content or the serialized tags: the `%` acts as a
LIKE wildcard inside the built pattern, so the claim as stated fails. -/
theorem search_contexts_counterexample :
    search_contexts "a%b".data none 10 (save_context wildEntry emptyStore) =
      some [wildEntry] ∧
    ciSubstring "a%b".data wildEntry.title = false ∧
    ciSubstring "a%b".data (contentToJson wildEntry.content) = false ∧
    ciSubstring "a%b".data (pyJoin ',' wildEntry.tags) = false ∧
    spec_search_contexts "a%b".data none 10
      (save_context wildEntry emptyStore) = some [] := by decide

/-- C6 (amended): for every query string containing no LIKE wildcard
character (`%` or `_`), `search_contexts` returns exactly the
specification's result: the stored entries whose title, serialized
content or serialized tags contain the query as an ASCII-case-insensitive
substring, filtered by type when given, ordered by stored timestamp
descending and truncated to the limit. -/
theorem search_contexts_spec (query : Str) (type_filter : Option Str)
    (limit : Nat) (st : Store)
    (hq : ∀ c ∈ query, c ≠ '%' ∧ c ≠ '_') :
    search_contexts query type_filter limit st =
      spec_search_contexts query type_filter limit st := by
  unfold search_contexts spec_search_contexts
  simp only
  have hfilter : (st.contexts.filter fun r =>
      (likeMatch (likePattern query) r.title ||
       likeMatch (likePattern query) (contentToJson r.content) ||
       likeMatch (likePattern query) r.tags) && typeCond type_filter r) =
      st.contexts.filter fun r =>
      (ciSubstring query r.title ||
       ciSubstring query (contentToJson r.content) ||
       ciSubstring query r.tags) && typeCond type_filter r :=
    List.filter_congr (fun r _ => by
      rw [likeMatch_eq_ciSubstring hq, likeMatch_eq_ciSubstring hq,
        likeMatch_eq_ciSubstring hq])
  rw [hfilter]

/-- C6 witness: a wildcard-free query against the sample store. -/
theorem search_contexts_spec_witness :
    search_contexts "test".data none 10
        (save_context sampleEntry emptyStore) =
      spec_search_contexts "test".data none 10
        (save_context sampleEntry emptyStore) :=
  search_contexts_spec "test".data none 10
    (save_context sampleEntry emptyStore) (by decide)

/-- C7: deleting an existing id reports true and a subsequent lookup
reports not-found; deleting an absent id reports false and leaves the
whole store unchanged. -/
theorem delete_context_spec (context_id : Str) (st : Store) :
    ((∃ r ∈ st.contexts, r.id = context_id) →
      (delete_context context_id st).1 = true ∧
      get_context context_id (delete_context context_id st).2 = none) ∧
    ((∀ r ∈ st.contexts, r.id ≠ context_id) →
      (delete_context context_id st).1 = false ∧
      (delete_context context_id st).2 = st) := by
  constructor
  · rintro ⟨r, hr, hid⟩
    constructor
    · show decide ((st.contexts.filter fun r =>
        decide (r.id ≠ context_id)).length < st.contexts.length) = true
      simp only [decide_eq_true_eq]
      exact List.length_filter_lt_length_iff_exists.mpr
        ⟨r, hr, by simp [hid]⟩
    · show (match (st.contexts.filter
          (fun r : ContextRow => decide (r.id ≠ context_id))).find?
          (fun r : ContextRow => decide (r.id = context_id)) with
        | none => none
        | some r => _row_to_context r) = none
      have h1 : (st.contexts.filter fun r =>
          decide (r.id ≠ context_id)).find? (fun r =>
            decide (r.id = context_id)) = none :=
        List.find?_eq_none.mpr (fun x hx => by
          have hne := List.of_mem_filter hx
          simp only [decide_eq_true_eq] at hne ⊢
          exact hne)
      rw [h1]
  · intro hall
    have hfe : (st.contexts.filter fun r => decide (r.id ≠ context_id)) =
        st.contexts :=
      List.filter_eq_self.mpr (fun r hr => by simp [hall r hr])
    constructor
    · show decide ((st.contexts.filter fun r =>
        decide (r.id ≠ context_id)).length < st.contexts.length) = false
      rw [hfe]
      simp
    · show ({ st with contexts := (st.contexts.filter (fun r : ContextRow => decide (r.id ≠ context_id))) } : Store) = st
      rw [hfe]

/-- C7 witness: deleting the sample entry from the store holding it. -/
theorem delete_context_spec_witness :
    (delete_context "e1".data (save_context sampleEntry emptyStore)).1 =
      true ∧
    get_context "e1".data
        (delete_context "e1".data
          (save_context sampleEntry emptyStore)).2 = none :=
  (delete_context_spec "e1".data (save_context sampleEntry emptyStore)).1
    ⟨contextToRow sampleEntry, by decide, by decide⟩

/-- C8: the two response updates touch only their own column of the row
carrying the target id: the snapshot table, every other field of every
row, and rows with other ids are untouched, row order and count included;
when no row has the id the store is returned completely unchanged. -/
theorem update_response_frame (context_id response : Str) (st : Store) :
    ((update_chatgpt_response context_id response st).todo_snapshots =
        st.todo_snapshots ∧
      (update_chatgpt_response context_id response st).contexts.map
          rowSansChatgpt = st.contexts.map rowSansChatgpt ∧
      (update_chatgpt_response context_id response st).contexts.map
          (fun r => r.chatgpt_response) =
        st.contexts.map (fun r =>
          if r.id = context_id then some response else r.chatgpt_response) ∧
      ((∀ r ∈ st.contexts, r.id ≠ context_id) →
        update_chatgpt_response context_id response st = st)) ∧
    ((update_claude_response context_id response st).todo_snapshots =
        st.todo_snapshots ∧
      (update_claude_response context_id response st).contexts.map
          rowSansClaude = st.contexts.map rowSansClaude ∧
      (update_claude_response context_id response st).contexts.map
          (fun r => r.claude_response) =
        st.contexts.map (fun r =>
          if r.id = context_id then some response else r.claude_response) ∧
      ((∀ r ∈ st.contexts, r.id ≠ context_id) →
        update_claude_response context_id response st = st)) := by
  constructor
  · refine ⟨rfl, ?_, ?_, ?_⟩
    · show (st.contexts.map fun r =>
        if r.id = context_id then { r with chatgpt_response := some response }
        else r).map rowSansChatgpt = st.contexts.map rowSansChatgpt
      rw [List.map_map]
      apply List.map_congr_left
      intro r _
      by_cases h : r.id = context_id <;> simp [Function.comp, h, rowSansChatgpt]
    · show (st.contexts.map fun r =>
        if r.id = context_id then { r with chatgpt_response := some response }
        else r).map (fun r => r.chatgpt_response) = _
      rw [List.map_map]
      apply List.map_congr_left
      intro r _
      by_cases h : r.id = context_id <;> simp [Function.comp, h]
    · intro hall
      show ({ st with contexts := (st.contexts.map fun r =>
        if r.id = context_id then { r with chatgpt_response := some response }
        else r) } : Store) = st
      have hmap : (st.contexts.map fun r =>
          if r.id = context_id then { r with chatgpt_response := some response }
          else r) = st.contexts := by
        rw [show st.contexts.map (fun r =>
            if r.id = context_id then { r with chatgpt_response := some response }
            else r) = st.contexts.map id from
          List.map_congr_left (fun r hr => by simp [hall r hr])]
        exact List.map_id st.contexts
      rw [hmap]
  · refine ⟨rfl, ?_, ?_, ?_⟩
    · show (st.contexts.map fun r =>
        if r.id = context_id then { r with claude_response := some response }
        else r).map rowSansClaude = st.contexts.map rowSansClaude
      rw [List.map_map]
      apply List.map_congr_left
      intro r _
      by_cases h : r.id = context_id <;> simp [Function.comp, h, rowSansClaude]
    · show (st.contexts.map fun r =>
        if r.id = context_id then { r with claude_response := some response }
        else r).map (fun r => r.claude_response) = _
      rw [List.map_map]
      apply List.map_congr_left
      intro r _
      by_cases h : r.id = context_id <;> simp [Function.comp, h]
    · intro hall
      show ({ st with contexts := (st.contexts.map fun r =>
        if r.id = context_id then { r with claude_response := some response }
        else r) } : Store) = st
      have hmap : (st.contexts.map fun r =>
          if r.id = context_id then { r with claude_response := some response }
          else r) = st.contexts := by
        rw [show st.contexts.map (fun r =>
            if r.id = context_id then { r with claude_response := some response }
            else r) = st.contexts.map id from
          List.map_congr_left (fun r hr => by simp [hall r hr])]
        exact List.map_id st.contexts
      rw [hmap]

/-- C8 witness: updating an absent id leaves the sample store unchanged. -/
theorem update_response_frame_witness :
    update_chatgpt_response "zz".data "resp".data
        (save_context sampleEntry emptyStore) =
      save_context sampleEntry emptyStore :=
  (update_response_frame "zz".data "resp".data
      (save_context sampleEntry emptyStore)).1.2.2.2 (by decide)

/-- C9 counterexample: two timezone-aware timestamps accepted at the
public interface whose UTC offsets differ. The first (+10:00 wall noon)
is chronologically earlier than the second (+00:00 wall 11:00), but its
encoding sorts lexicographically after it, so lexical and chronological
order do not coincide and a listing sorted by the stored text misorders
them. -/
theorem timestamp_order_counterexample :
    validDT ⟨2024, 1, 1, 12, 0, 0, 0, some 600⟩ = true ∧
    validDT ⟨2024, 1, 1, 11, 0, 0, 0, some 0⟩ = true ∧
    dtLt ⟨2024, 1, 1, 12, 0, 0, 0, some 600⟩
      ⟨2024, 1, 1, 11, 0, 0, 0, some 0⟩ = true ∧
    strLt (isoformat ⟨2024, 1, 1, 12, 0, 0, 0, some 600⟩)
      (isoformat ⟨2024, 1, 1, 11, 0, 0, 0, some 0⟩) = false ∧
    strLt (isoformat ⟨2024, 1, 1, 11, 0, 0, 0, some 0⟩)
      (isoformat ⟨2024, 1, 1, 12, 0, 0, 0, some 600⟩) = true := by decide

/-- C9 (amended): for every pair of timestamps sharing one UTC offset —
both naive, or both aware with equal offsets, which is every pair a
single well-behaved deployment produces — the stored `isoformat` text
preserves full precision (the encoding is injective, timezone included)
and its lexicographic order coincides exactly with chronological order,
so text-sorted listings are chronologically ordered. Pairs with unequal
offsets are excluded: the counterexample shows the encoded order then
diverges from the chronological one. -/
theorem timestamp_order_same_offset (d1 d2 : PyDatetime)
    (h1 : validDT d1 = true) (h2 : validDT d2 = true)
    (hoff : d1.utcoffsetMinutes = d2.utcoffsetMinutes) :
    (strLt (isoformat d1) (isoformat d2) = true ↔ dtLt d1 d2 = true) ∧
    (isoformat d1 = isoformat d2 ↔ d1 = d2) := by
  have hcmp := strCmp_isoformat h1 h2 hoff
  have hdt : dtCmp d1 d2 = some (tupleCmp d1 d2) := by
    unfold dtCmp
    rw [hoff]
    cases d2.utcoffsetMinutes with
    | none => rfl
    | some o => simp
  constructor
  · unfold strLt dtLt
    rw [hcmp, hdt]
    cases htc : tupleCmp d1 d2 <;> simp
  · exact isoformat_inj h1 h2 hoff

/-- C9 witness: a concrete equal-offset pair one hour apart. -/
theorem timestamp_order_same_offset_witness :
    (strLt (isoformat ⟨2024, 1, 1, 11, 0, 0, 0, some 60⟩)
        (isoformat ⟨2024, 1, 1, 12, 0, 0, 0, some 60⟩) = true ↔
      dtLt ⟨2024, 1, 1, 11, 0, 0, 0, some 60⟩
        ⟨2024, 1, 1, 12, 0, 0, 0, some 60⟩ = true) ∧
    (isoformat ⟨2024, 1, 1, 11, 0, 0, 0, some 60⟩ =
        isoformat ⟨2024, 1, 1, 12, 0, 0, 0, some 60⟩ ↔
      (⟨2024, 1, 1, 11, 0, 0, 0, some 60⟩ : PyDatetime) =
        ⟨2024, 1, 1, 12, 0, 0, 0, some 60⟩) :=
  timestamp_order_same_offset ⟨2024, 1, 1, 11, 0, 0, 0, some 60⟩
    ⟨2024, 1, 1, 12, 0, 0, 0, some 60⟩ (by decide) (by decide) (by decide)

/-- C10: with the empty tag list the OR-joined WHERE clause is empty and
the built statement is invalid SQL, so `get_contexts_by_tags` raises for
every database state instead of returning a list; with any non-empty tag
list over a store whose rows all parse, it returns a list. -/
theorem get_contexts_by_tags_empty_errors (limit : Nat) (st : Store) :
    (get_contexts_by_tags [] limit st).isOk = false ∧
    (∀ tags : List Str, tags ≠ [] →
      (∀ r ∈ st.contexts, (_row_to_context r).isSome) →
      ∃ l, get_contexts_by_tags tags limit st = .ok (some l)) := by
  constructor
  · rfl
  · intro tags hne hwf
    unfold get_contexts_by_tags
    rw [if_neg (by simpa using hne)]
    obtain ⟨l, hl⟩ := mapM_option_isSome _row_to_context
      ((sortTsDesc (fun r : ContextRow => r.timestamp)
        (st.contexts.filter fun r =>
          tags.any fun t => likeMatch (likePattern t) r.tags)).take limit)
      (fun r hr => hwf r (List.mem_of_mem_filter
        ((mem_sortTsDesc (fun r : ContextRow => r.timestamp)).mp
          (List.take_subset _ _ hr))))
    exact ⟨l, by rw [hl]⟩

/-- C10 witness: one tag over the sample store yields a list; the zero-tag
call errors on the same store. -/
theorem get_contexts_by_tags_empty_errors_witness :
    (get_contexts_by_tags [] 10
        (save_context sampleEntry emptyStore)).isOk = false ∧
    ∃ l, get_contexts_by_tags ["test".data] 10
        (save_context sampleEntry emptyStore) = .ok (some l) :=
  ⟨(get_contexts_by_tags_empty_errors 10
      (save_context sampleEntry emptyStore)).1,
    (get_contexts_by_tags_empty_errors 10
        (save_context sampleEntry emptyStore)).2 ["test".data]
      (by decide) (by decide)⟩
